import Mathlib

/-!
A shallow embedding of `src/weather.py` (a small weather-summary module) and
proofs about the claims of its specification.

Modelling conventions:
* Python's duck-typed values (int / float / str) are the inductive `Value`;
  floats are modelled as exact rationals (all quantities in the claims are
  exactly representable and all comparisons exact at the relevant inputs).
* A raised exception is modelled by `Option.none` (or an explicit error
  constructor where the code catches it).
* `float(x)` / `int(x)` on strings are modelled by executable parsers for the
  core literal grammar (sign, digits, decimal point, exponent), excluding
  `inf` / `nan` / underscore separators, which never occur here.
* The one file read is modelled by passing the file's physical lines as
  `Option (List String)` (`none` = `FileNotFoundError`); csv parsing is
  modelled as comma splitting (no quoting occurs in this data format).
-/

namespace Weather

/-- A Python value as it occurs in the weather data: an `int`, a `float`
(modelled as an exact rational) or a `str`. -/
inductive Value where
  | intV (n : Int)
  | floatV (q : ℚ)
  | strV (s : String)
deriving DecidableEq, Repr

/-- The value of a list of decimal digit characters. -/
def digitsToNat (ds : List Char) : ℕ :=
  ds.foldl (fun a c => a * 10 + (c.toNat - 48)) 0

/-- Python's `str.strip()` with no argument: remove leading and trailing
whitespace. -/
def pyStrip (ds : List Char) : List Char :=
  ((ds.dropWhile Char.isWhitespace).reverse.dropWhile Char.isWhitespace).reverse

/-- Strip one optional leading sign; returns (isNegative, rest). -/
def splitSign : List Char → Bool × List Char
  | '+' :: ds => (false, ds)
  | '-' :: ds => (true, ds)
  | ds => (false, ds)

/-- Parse the optional exponent part of a float literal (after the mantissa
`m`): empty, or `e`/`E`, an optional sign and a nonempty digit string. -/
def parseExpPart (r : List Char) (m : ℚ) : Option ℚ :=
  match r with
  | [] => some m
  | e :: t =>
    if e = 'e' ∨ e = 'E' then
      let (neg, t2) := splitSign t
      let ed := t2.takeWhile Char.isDigit
      if t2.dropWhile Char.isDigit = [] ∧ ed ≠ [] then
        some (m * (if neg then ((10 : ℚ)) ^ (-(digitsToNat ed : ℤ))
                   else ((10 : ℚ)) ^ ((digitsToNat ed : ℤ))))
      else none
    else none

/-- Parse an unsigned float literal: `digits [. [digits]] [exp]` or
`. digits [exp]`. -/
def parseFloatCore (ds : List Char) : Option ℚ :=
  let ip := ds.takeWhile Char.isDigit
  let r1 := ds.dropWhile Char.isDigit
  match r1 with
  | '.' :: t =>
    let fp := t.takeWhile Char.isDigit
    let r2 := t.dropWhile Char.isDigit
    if ip = [] ∧ fp = [] then none
    else parseExpPart r2
      ((digitsToNat ip : ℚ) + (digitsToNat fp : ℚ) / ((10 : ℚ)) ^ fp.length)
  | _ =>
    if ip = [] then none
    else parseExpPart r1 (digitsToNat ip : ℚ)

/-- Python `float(s)` on a string: strip whitespace, optional sign, then a
float literal (finite literals only; see the module conventions). -/
def pyFloatOfString (s : String) : Option ℚ :=
  let (neg, ds) := splitSign (pyStrip s.data)
  (parseFloatCore ds).map (fun q => if neg then -q else q)

/-- Python `float(v)`: numbers convert to their exact value, strings are
parsed, failure (`ValueError`) is `none`. -/
def pyFloat : Value → Option ℚ
  | .intV n => some (n : ℚ)
  | .floatV q => some q
  | .strV s => pyFloatOfString s

/-- Python `int(s)` on a string: strip whitespace, optional sign, then a
nonempty digit string. -/
def pyInt (s : String) : Option Int :=
  let (neg, ds) := splitSign (pyStrip s.data)
  if ds ≠ [] ∧ ds.all Char.isDigit then
    some (if neg then -(digitsToNat ds : Int) else (digitsToNat ds : Int))
  else none

/-- The Python comprehension `[float(value) for value in l]`, propagating the
`ValueError` of any failing element as `none`. -/
def floatList : List Value → Option (List ℚ)
  | [] => some []
  | v :: vs =>
    match pyFloat v with
    | none => none
    | some q => (floatList vs).map (q :: ·)

/-- Round-half-to-even to an integer: the rounding used by Python's `round`
on the (here: exact) value being rounded. -/
def rndHalfEven (q : ℚ) : ℤ :=
  if q - ⌊q⌋ < 1/2 then ⌊q⌋
  else if 1/2 < q - ⌊q⌋ then ⌊q⌋ + 1
  else if ⌊q⌋ % 2 = 0 then ⌊q⌋ else ⌊q⌋ + 1

/-- Python `round(x, 1)`: round to one decimal place. -/
def round1 (q : ℚ) : ℚ := (rndHalfEven (q * 10) : ℚ) / 10

/-- `convert_f_to_c` from the source: `(float(t) - 32) * 5/9` rounded to one
decimal place; a non-numeric input raises (`none`). -/
def convert_f_to_c (temp_in_fahrenheit : Value) : Option ℚ :=
  (pyFloat temp_in_fahrenheit).map (fun t => round1 ((t - 32) * 5 / 9))

/-- f-string rendering of a Python float whose value is an exact multiple of
1/10 (every float this program formats is a `round(_, 1)` result): the
shortest-roundtrip repr is then the one-decimal decimal string. -/
def strFloat1 (q : ℚ) : String :=
  let z : ℤ := ⌊q * 10⌋
  (if z < 0 then "-" else "")
    ++ toString (z.natAbs / 10) ++ "." ++ toString (z.natAbs % 10)

def DEGREE_SYMBOL : String := "°C"

/-- `format_temperature` from the source: `f"{temp}{DEGREE_SYMBOL}"`. -/
def format_temperature (temp : ℚ) : String :=
  strFloat1 temp ++ DEGREE_SYMBOL

/-- Python `list.index(v)`: the first index holding `v`; `none` models the
`ValueError` raised when `v` is absent. -/
def pyIndex : List ℚ → ℚ → Option ℕ
  | [], _ => none
  | x :: xs, v => if x = v then some 0 else (pyIndex xs v).map (· + 1)

/-- The result of `find_min` / `find_max`: the empty tuple `()` for an empty
input, else a `(value, index)` pair. -/
inductive MinMaxResult where
  | emptyTuple
  | pair (v : ℚ) (i : ℕ)
deriving DecidableEq, Repr

/-- `find_min` from the source: empty input gives `()`; otherwise all values
are converted to float, and the minimum is returned together with
`len - 1 - reversed.index(min)`, the index of its last occurrence. -/
def find_min (weather_data : List Value) : Option MinMaxResult :=
  if weather_data = [] then some .emptyTuple
  else
    match floatList weather_data with
    | none => none
    | some float_data =>
      match float_data.min? with
      | none => none
      | some min_value =>
        match pyIndex float_data.reverse min_value with
        | none => none
        | some k => some (.pair min_value (float_data.length - 1 - k))

/-- `find_max` from the source, symmetric to `find_min` with the maximum. -/
def find_max (weather_data : List Value) : Option MinMaxResult :=
  if weather_data = [] then some .emptyTuple
  else
    match floatList weather_data with
    | none => none
    | some float_data =>
      match float_data.max? with
      | none => none
      | some max_value =>
        match pyIndex float_data.reverse max_value with
        | none => none
        | some k => some (.pair max_value (float_data.length - 1 - k))

/-- The result of `calculate_mean`: a float, or the caught-`ValueError`
sentinel string. -/
inductive MeanResult where
  | num (q : ℚ)
  | err (s : String)
deriving DecidableEq, Repr

/-- `calculate_mean` from the source: sum of `float(v)` over the list divided
by its length; an empty list's `ZeroDivisionError` is caught and `0.0`
returned; a failed conversion's `ValueError` is caught and the literal
string `"Cannot divide by zero"` returned. -/
def calculate_mean (weather_data : List Value) : MeanResult :=
  match floatList weather_data with
  | none => .err "Cannot divide by zero"
  | some qs =>
    if qs.length = 0 then .num 0
    else .num (qs.sum / qs.length)

/-- A proleptic-Gregorian calendar date, as held by a Python `datetime`. -/
structure PyDate where
  year : ℕ
  month : ℕ
  day : ℕ
deriving DecidableEq, Repr

def isLeapYear (y : ℕ) : Bool :=
  (y % 4 == 0 && y % 100 != 0) || y % 400 == 0

def daysInMonth (y m : ℕ) : ℕ :=
  if m = 2 then (if isLeapYear y then 29 else 28)
  else if m = 4 ∨ m = 6 ∨ m = 9 ∨ m = 11 then 30
  else 31

def daysBeforeMonth (y m : ℕ) : ℕ :=
  let base :=
    match m with
    | 1 => 0 | 2 => 31 | 3 => 59 | 4 => 90 | 5 => 120 | 6 => 151
    | 7 => 181 | 8 => 212 | 9 => 243 | 10 => 273 | 11 => 304 | _ => 334
  if 3 ≤ m ∧ isLeapYear y then base + 1 else base

/-- The proleptic-Gregorian day number of a date (0001-01-01 is day 1, a
Monday), as used by `datetime.toordinal`. -/
def rataDie (d : PyDate) : ℕ :=
  365 * (d.year - 1) + (d.year - 1) / 4 - (d.year - 1) / 100 + (d.year - 1) / 400
    + daysBeforeMonth d.year d.month + d.day

/-- `%A`: the full weekday name of a date. -/
def weekdayName (d : PyDate) : String :=
  match rataDie d % 7 with
  | 0 => "Sunday" | 1 => "Monday" | 2 => "Tuesday" | 3 => "Wednesday"
  | 4 => "Thursday" | 5 => "Friday" | _ => "Saturday"

/-- `%B`: the full month name. -/
def monthName (m : ℕ) : String :=
  match m with
  | 1 => "January" | 2 => "February" | 3 => "March" | 4 => "April"
  | 5 => "May" | 6 => "June" | 7 => "July" | 8 => "August"
  | 9 => "September" | 10 => "October" | 11 => "November" | _ => "December"

/-- `%d`: the day of the month, zero-padded to two digits. -/
def pad2 (n : ℕ) : String :=
  if n < 10 then "0" ++ toString n else toString n

/-- `datetime.strftime("%A %d %B %Y")` (the year unpadded, as rendered for
the four-digit years `fromisoformat` produces). -/
def strftimeAdBY (d : PyDate) : String :=
  weekdayName d ++ " " ++ pad2 d.day ++ " " ++ monthName d.month ++ " "
    ++ toString d.year

/-- Parse a 10-character `YYYY-MM-DD` calendar date: four year digits, a
dash, two month digits, a dash, two day digits, naming a real
proleptic-Gregorian date (year ≥ 1, as `datetime.MINYEAR = 1`). -/
def parse10 (ds : List Char) : Option PyDate :=
  match ds with
  | [y1, y2, y3, y4, h1, m1, m2, h2, d1, d2] =>
    if h1 = '-' ∧ h2 = '-' ∧ ([y1, y2, y3, y4, m1, m2, d1, d2].all Char.isDigit) then
      let y := digitsToNat [y1, y2, y3, y4]
      let m := digitsToNat [m1, m2]
      let d := digitsToNat [d1, d2]
      if 1 ≤ y ∧ 1 ≤ m ∧ m ≤ 12 ∧ 1 ≤ d ∧ d ≤ daysInMonth y m then
        some ⟨y, m, d⟩
      else none
    else none
  | _ => none

/-- An `HH:MM:SS` time-of-day string. -/
def validTimeHMS (ds : List Char) : Bool :=
  match ds with
  | [h1, h2, c1, m1, m2, c2, s1, s2] =>
    c1 == ':' && c2 == ':' && ([h1, h2, m1, m2, s1, s2].all Char.isDigit)
      && decide (digitsToNat [h1, h2] < 24)
      && decide (digitsToNat [m1, m2] < 60)
      && decide (digitsToNat [s1, s2] < 60)
  | _ => false

/-- Modelled behavior of CPython's `datetime.fromisoformat` (CPython ≤ 3.10
semantics), restricted to the sublanguage this development needs: the
10-character `YYYY-MM-DD` calendar-date form, and a date followed by a
one-character separator and an `HH:MM:SS` time-of-day (a form accepted by
every CPython version since 3.7).  Longer time forms (fractional seconds,
time zones) that CPython also accepts are outside the model and mapped to
`none`; no theorem below quantifies over them. -/
def pyFromisoformat (s : String) : Option PyDate :=
  let ds := s.data
  if ds.length = 10 then parse10 ds
  else if ds.length = 19 ∧ validTimeHMS (ds.drop 11) then parse10 (ds.take 10)
  else none

/-- `convert_date` from the source: `fromisoformat` then
`strftime("%A %d %B %Y")`; a parse failure raises (`none`). -/
def convert_date (iso_string : String) : Option String :=
  (pyFromisoformat iso_string).map strftimeAdBY

/-- Spec-side grammar, written from the spec's words: a "valid ISO-8601
calendar-date string (YYYY-MM-DD)" — ten characters, four year digits, a
dash, two month digits, a dash, two day digits, naming a real calendar
date. -/
def validCalendarData (ds : List Char) : Bool :=
  match ds with
  | [y1, y2, y3, y4, h1, m1, m2, h2, d1, d2] =>
    h1 == '-' && h2 == '-' && ([y1, y2, y3, y4, m1, m2, d1, d2].all Char.isDigit)
      && decide (1 ≤ digitsToNat [y1, y2, y3, y4])
      && decide (1 ≤ digitsToNat [m1, m2]) && decide (digitsToNat [m1, m2] ≤ 12)
      && decide (1 ≤ digitsToNat [d1, d2])
      && decide (digitsToNat [d1, d2]
           ≤ daysInMonth (digitsToNat [y1, y2, y3, y4]) (digitsToNat [m1, m2]))
  | _ => false

/-- The spec-side grammar on strings. -/
def validCalendarDateStr (s : String) : Bool :=
  validCalendarData s.data

/-- A loaded row: a Python list of values. -/
abbrev Row := List Value

/-- A non-date field of a csv row: an `int` when it parses as one, else the
original string. -/
def coerceField (s : String) : Value :=
  match pyInt s with
  | some n => .intV n
  | none => .strV s

/-- The loader's per-row processing: field 0 kept as a string, every later
field coerced. -/
def processRow : List String → Row
  | [] => []
  | h :: t => .strV h :: t.map coerceField

/-- One line through `csv.reader`, modelled for the unquoted comma-separated
format this program reads: a blank line is the empty row, any other line
splits on commas. -/
def csvRow (line : String) : List String :=
  if line = "" then [] else line.splitOn ","

/-- The loader's row loop with its `header_skipped` flag.  The source filter
`if row and ("for cell in row")` is just `row ≠ []` (the string literal is
truthy), so empty rows are dropped before the header logic runs; the first
row surviving the filter is consumed as the header; every later surviving
row is processed and kept. -/
def loadRows : List (List String) → Bool → List Row
  | [], _ => []
  | row :: rest, header_skipped =>
    if row = [] then loadRows rest header_skipped
    else if header_skipped then processRow row :: loadRows rest true
    else loadRows rest true

/-- `load_data_from_csv` from the source.  The filesystem is modelled by
passing the file's physical lines, `none` when the file does not exist
(`FileNotFoundError`).  Returns the dataset together with the list of
console messages printed. -/
def load_data_from_csv (csv_file : String) (contents : Option (List String)) :
    List Row × List String :=
  match contents with
  | none => ([], ["Error: The file '" ++ csv_file ++ "' does not exist."])
  | some lines => (loadRows (lines.map csvRow) false, [])

/-- `convert_date` applied to a row field: a non-string argument makes
`fromisoformat` raise (`TypeError`). -/
def convertDateValue : Value → Option String
  | .strV s => convert_date s
  | _ => none

/-- The Python value of a `calculate_mean` result (a float, or the sentinel
string), as `generate_summary` passes it on to `convert_f_to_c`. -/
def meanToValue : MeanResult → Value
  | .num q => .floatV q
  | .err s => .strV s

/-- The comprehension `[float(row[i]) for row in rows]`; a missing field
(`IndexError`) or failed conversion (`ValueError`) raises. -/
def colFloats (i : ℕ) : List Row → Option (List ℚ)
  | [] => some []
  | r :: rs =>
    match (r.get? i).bind pyFloat with
    | none => none
    | some q => (colFloats i rs).map (q :: ·)

/-- `generate_summary` from the source: empty dataset gives `""`; otherwise
the column-1 and column-2 floats are extracted, `find_min` / `find_max`
locate the extremes and their row indices, the dates are read at those
indices, the means are converted and everything is rendered into the fixed
five-line template.  Any raised exception propagates as `none`. -/
def generate_summary (weather_data : List Row) : Option String :=
  if weather_data = [] then some ""
  else
    match colFloats 1 weather_data, colFloats 2 weather_data with
    | some min_temps, some max_temps =>
      (match find_min (min_temps.map Value.floatV),
             find_max (max_temps.map Value.floatV) with
       | some (.pair overall_min_temp min_index),
         some (.pair overall_max_temp max_index) =>
         (match convert_f_to_c (.floatV overall_min_temp),
                convert_f_to_c (.floatV overall_max_temp) with
          | some min_temp_celsius, some max_temp_celsius =>
            (match (weather_data.get? min_index).bind
                     (fun r => (r.get? 0).bind convertDateValue),
                   (weather_data.get? max_index).bind
                     (fun r => (r.get? 0).bind convertDateValue) with
             | some min_date_formatted, some max_date_formatted =>
               (match convert_f_to_c (meanToValue (calculate_mean (min_temps.map Value.floatV))),
                      convert_f_to_c (meanToValue (calculate_mean (max_temps.map Value.floatV))) with
                | some avg_low_c, some avg_high_c =>
                  some (toString weather_data.length ++ " Day Overview\n"
                    ++ "  The lowest temperature will be " ++ format_temperature min_temp_celsius
                    ++ ", and will occur on " ++ min_date_formatted ++ ".\n"
                    ++ "  The highest temperature will be " ++ format_temperature max_temp_celsius
                    ++ ", and will occur on " ++ max_date_formatted ++ ".\n"
                    ++ "  The average low this week is " ++ format_temperature avg_low_c ++ ".\n"
                    ++ "  The average high this week is " ++ format_temperature avg_high_c ++ ".\n")
                | _, _ => none)
             | _, _ => none)
          | _, _ => none)
       | _, _ => none)
    | _, _ => none

/-- One iteration of the `generate_daily_summary` loop: the three-line block
for one row, which by construction ends with a newline. -/
def dayBlock (row : Row) : Option String :=
  match row.get? 0, row.get? 1, row.get? 2 with
  | some date_val, some min_temp, some max_temp =>
    (match convertDateValue date_val, convert_f_to_c min_temp, convert_f_to_c max_temp with
     | some formatted_date, some min_c, some max_c =>
       some (("---- " ++ formatted_date ++ " ----\n"
           ++ "  Minimum Temperature: " ++ format_temperature min_c ++ "\n"
           ++ "  Maximum Temperature: " ++ format_temperature max_c) ++ "\n")
     | _, _, _ => none)
  | _, _, _ => none

/-- The `generate_daily_summary` loop, accumulating one block per row; any
raised exception propagates as `none`. -/
def rowBlocks : List Row → Option (List String)
  | [] => some []
  | r :: rs =>
    match dayBlock r with
    | none => none
    | some b => (rowBlocks rs).map (b :: ·)

/-- Python `sep.join(l)`. -/
def pyJoin (sep : String) : List String → String
  | [] => ""
  | [x] => x
  | x :: y :: ys => x ++ sep ++ pyJoin sep (y :: ys)

/-- `generate_daily_summary` from the source: the per-day blocks joined with
`"\n"` and a final `"\n"` appended. -/
def generate_daily_summary (weather_data : List Row) : Option String :=
  (rowBlocks weather_data).map (fun summary_lines => pyJoin "\n" summary_lines ++ "\n")

/-! ### Helper lemmas -/

theorem foldl_min_spec (xs : List ℚ) : ∀ (x : ℚ),
    (xs.foldl min x = x ∨ xs.foldl min x ∈ xs) ∧
    xs.foldl min x ≤ x ∧ ∀ y ∈ xs, xs.foldl min x ≤ y := by
  induction xs with
  | nil => intro x; exact ⟨Or.inl rfl, le_refl x, by simp⟩
  | cons z zs ih =>
    intro x
    have h := ih (min x z)
    refine ⟨?_, ?_, ?_⟩
    · simp only [List.foldl_cons]
      rcases h.1 with h1 | h1
      · rcases min_choice x z with hc | hc
        · exact Or.inl (by rw [h1, hc])
        · refine Or.inr ?_
          rw [h1, hc]
          exact List.mem_cons_self z zs
      · exact Or.inr (List.mem_cons_of_mem z h1)
    · exact le_trans h.2.1 (min_le_left x z)
    · intro y hy
      rcases List.mem_cons.mp hy with rfl | hy
      · exact le_trans h.2.1 (min_le_right x y)
      · exact h.2.2 y hy

theorem foldl_max_spec (xs : List ℚ) : ∀ (x : ℚ),
    (xs.foldl max x = x ∨ xs.foldl max x ∈ xs) ∧
    x ≤ xs.foldl max x ∧ ∀ y ∈ xs, y ≤ xs.foldl max x := by
  induction xs with
  | nil => intro x; exact ⟨Or.inl rfl, le_refl x, by simp⟩
  | cons z zs ih =>
    intro x
    have h := ih (max x z)
    refine ⟨?_, ?_, ?_⟩
    · simp only [List.foldl_cons]
      rcases h.1 with h1 | h1
      · rcases max_choice x z with hc | hc
        · exact Or.inl (by rw [h1, hc])
        · refine Or.inr ?_
          rw [h1, hc]
          exact List.mem_cons_self z zs
      · exact Or.inr (List.mem_cons_of_mem z h1)
    · exact le_trans (le_max_left x z) h.2.1
    · intro y hy
      rcases List.mem_cons.mp hy with rfl | hy
      · exact le_trans (le_max_right x y) h.2.1
      · exact h.2.2 y hy

theorem min?_spec {l : List ℚ} {m : ℚ} (h : l.min? = some m) :
    m ∈ l ∧ ∀ x ∈ l, m ≤ x := by
  cases l with
  | nil => simp at h
  | cons x xs =>
    rw [List.min?_cons'] at h
    obtain rfl : List.foldl min x xs = m := by injection h
    have hs := foldl_min_spec xs x
    constructor
    · rcases hs.1 with h1 | h1
      · rw [h1]; exact List.mem_cons_self x xs
      · exact List.mem_cons_of_mem x h1
    · intro y hy
      rcases List.mem_cons.mp hy with rfl | hy
      · exact hs.2.1
      · exact hs.2.2 y hy

theorem max?_spec {l : List ℚ} {m : ℚ} (h : l.max? = some m) :
    m ∈ l ∧ ∀ x ∈ l, x ≤ m := by
  cases l with
  | nil => simp at h
  | cons x xs =>
    rw [List.max?_cons'] at h
    obtain rfl : List.foldl max x xs = m := by injection h
    have hs := foldl_max_spec xs x
    constructor
    · rcases hs.1 with h1 | h1
      · rw [h1]; exact List.mem_cons_self x xs
      · exact List.mem_cons_of_mem x h1
    · intro y hy
      rcases List.mem_cons.mp hy with rfl | hy
      · exact hs.2.1
      · exact hs.2.2 y hy

theorem pyIndex_of_mem {l : List ℚ} {v : ℚ} (h : v ∈ l) :
    ∃ k, pyIndex l v = some k := by
  induction l with
  | nil => simp at h
  | cons x xs ih =>
    by_cases hx : x = v
    · exact ⟨0, by simp [pyIndex, hx]⟩
    · rcases List.mem_cons.mp h with rfl | hv
      · exact absurd rfl hx
      · obtain ⟨k, hk⟩ := ih hv
        exact ⟨k + 1, by simp [pyIndex, hx, hk]⟩

theorem pyIndex_spec {l : List ℚ} {v : ℚ} : ∀ {k : ℕ}, pyIndex l v = some k →
    k < l.length ∧ l[k]? = some v ∧ ∀ j < k, l[j]? ≠ some v := by
  induction l with
  | nil => intro k h; simp [pyIndex] at h
  | cons x xs ih =>
    intro k h
    by_cases hx : x = v
    · simp [pyIndex, hx] at h
      subst h
      simp [hx]
    · simp only [pyIndex, if_neg hx, Option.map_eq_some'] at h
      obtain ⟨k', hk', rfl⟩ := h
      obtain ⟨h1, h2, h3⟩ := ih hk'
      refine ⟨by simpa using Nat.succ_lt_succ h1, by simpa using h2, ?_⟩
      intro j hj
      cases j with
      | zero => simpa using hx
      | succ j' => simpa using h3 j' (Nat.lt_of_succ_lt_succ hj)

theorem floatList_length : ∀ {vs : List Value} {qs : List ℚ},
    floatList vs = some qs → qs.length = vs.length := by
  intro vs
  induction vs with
  | nil => intro qs h; simp [floatList] at h; simp [← h]
  | cons v vt ih =>
    intro qs h
    simp only [floatList] at h
    cases hv : pyFloat v with
    | none => simp [hv] at h
    | some q =>
      rw [hv] at h
      simp only [Option.map_eq_some'] at h
      obtain ⟨qs', hqs', rfl⟩ := h
      simp [ih hqs']

theorem floatList_none_of_mem {vs : List Value} {v : Value}
    (hmem : v ∈ vs) (hv : pyFloat v = none) : floatList vs = none := by
  induction vs with
  | nil => simp at hmem
  | cons w wt ih =>
    rcases List.mem_cons.mp hmem with rfl | h
    · simp [floatList, hv]
    · simp only [floatList]
      cases hw : pyFloat w with
      | none => rfl
      | some q => rw [ih h]; rfl

theorem floatList_map_floatV (qs : List ℚ) :
    floatList (qs.map Value.floatV) = some qs := by
  induction qs with
  | nil => rfl
  | cons q qt ih => simp [floatList, pyFloat, ih]

theorem floatList_getElem? {vs : List Value} {qs : List ℚ}
    (h : floatList vs = some qs) {i : ℕ} {v : Value} (hv : vs[i]? = some v) :
    qs[i]? = pyFloat v := by
  induction vs generalizing qs i with
  | nil => simp at hv
  | cons w wt ih =>
    simp only [floatList] at h
    cases hw : pyFloat w with
    | none => simp [hw] at h
    | some q =>
      rw [hw] at h
      simp only [Option.map_eq_some'] at h
      obtain ⟨qs', hqs', rfl⟩ := h
      cases i with
      | zero =>
        simp at hv
        simp [← hv, hw]
      | succ i' =>
        simp only [List.getElem?_cons_succ] at hv ⊢
        exact ih hqs' hv

theorem loadRows_true (rows : List (List String)) :
    loadRows rows true = (rows.filter (fun r => !r.isEmpty)).map processRow := by
  induction rows with
  | nil => rfl
  | cons row rest ih =>
    cases row with
    | nil => simpa [loadRows] using ih
    | cons a as => simp [loadRows, List.filter_cons, ih]

theorem loadRows_false (rows : List (List String)) :
    loadRows rows false
      = ((rows.filter (fun r => !r.isEmpty)).drop 1).map processRow := by
  induction rows with
  | nil => rfl
  | cons row rest ih =>
    cases row with
    | nil => simpa [loadRows] using ih
    | cons a as => simp [loadRows, List.filter_cons, loadRows_true]

/-! ### Claim theorems -/

/-- C8: when the CSV loader is given a path to a file that does not exist,
it reports the error to the console sink and returns an empty dataset,
rather than propagating a hard failure (the function returns normally). -/
theorem C8_missing_file_recovery (csv_file : String) :
    load_data_from_csv csv_file none
      = ([], ["Error: The file '" ++ csv_file ++ "' does not exist."]) := rfl

/-- C4 counterexample: the claim says the row excluded as header is always
the first physical line, even when that line is empty — so on the file
`["", "date,temp", "2021-01-01,5"]` the dataset would keep both non-empty
rows.  The code instead drops the empty first line before the header logic
and consumes `"date,temp"` (the first NON-empty row) as the header, keeping
only the third line. -/
theorem C4_counterexample :
    (load_data_from_csv "weather.csv" (some ["", "date,temp", "2021-01-01,5"])).1
        ≠ [processRow ["date", "temp"], processRow ["2021-01-01", "5"]] ∧
      (load_data_from_csv "weather.csv" (some ["", "date,temp", "2021-01-01,5"])).1
        = [[Value.strV "2021-01-01", Value.intV 5]] := by
  exact ⟨by with_unfolding_all decide, by with_unfolding_all decide⟩

/-- C4 amended: the loader drops every empty row wherever it occurs, and the
row consumed as the header is the first NON-empty row (which is the first
physical row only when that row is non-empty); the dataset is the remaining
non-empty rows, in order, processed. -/
theorem C4_amended (csv_file : String) (lines : List String) :
    (load_data_from_csv csv_file (some lines)).1
      = (((lines.map csvRow).filter (fun r => !r.isEmpty)).drop 1).map processRow := by
  simpa [load_data_from_csv] using loadRows_false (lines.map csvRow)

/-- C9: every kept row is its raw csv row with field 0 preserved verbatim as
a string and each later field coerced — an integer when it parses as one,
otherwise the original string — for any number of columns. -/
theorem C9_field_coercion (csv_file : String) (lines : List String) (i : ℕ)
    (r : List String)
    (hr : (((lines.map csvRow).filter (fun t => !t.isEmpty)).drop 1)[i]? = some r) :
    (∃ h t, r = h :: t ∧
      (load_data_from_csv csv_file (some lines)).1[i]?
        = some (Value.strV h :: t.map coerceField)) ∧
    (∀ s n, pyInt s = some n → coerceField s = Value.intV n) ∧
    (∀ s, pyInt s = none → coerceField s = Value.strV s) := by
  refine ⟨?_, ?_, ?_⟩
  · have hmem : r ∈ ((lines.map csvRow).filter (fun t => !t.isEmpty)).drop 1 := by
      rw [← List.get?_eq_getElem?] at hr
      exact List.get?_mem hr
    have hfil : r ∈ (lines.map csvRow).filter (fun t => !t.isEmpty) :=
      List.drop_subset 1 _ hmem
    have hne : ¬ r.isEmpty := by
      have := (List.mem_filter.mp hfil).2
      simpa using this
    cases r with
    | nil => simp at hne
    | cons h t =>
      refine ⟨h, t, rfl, ?_⟩
      have hload : (load_data_from_csv csv_file (some lines)).1
          = (((lines.map csvRow).filter (fun t => !t.isEmpty)).drop 1).map processRow := by
        simpa [load_data_from_csv] using loadRows_false (lines.map csvRow)
      rw [hload, List.getElem?_map, hr]
      rfl
  · intro s n h
    simp [coerceField, h]
  · intro s h
    simp [coerceField, h]

/-- C9 witness: a concrete two-line file, checking the coerced first kept
row. -/
theorem C9_witness :
    (load_data_from_csv "weather.csv" (some ["date,min,max", "2020-01-01,3,x"])).1[0]?
      = some [Value.strV "2020-01-01", Value.intV 3, Value.strV "x"] := by
  obtain ⟨⟨h, t, ht, heq⟩, -, -⟩ :=
    C9_field_coercion "weather.csv" ["date,min,max", "2020-01-01,3,x"] 0
      ["2020-01-01", "3", "x"] (by with_unfolding_all decide)
  obtain ⟨rfl, rfl⟩ : h = "2020-01-01" ∧ t = ["3", "x"] := by
    injection ht with ha hb
    exact ⟨ha.symm, hb.symm⟩
  rw [heq]
  with_unfolding_all decide

/-- C2: when any element of the input fails float conversion,
`calculate_mean` returns the literal sentinel string
`"Cannot divide by zero"` instead of raising; in particular on `["a"]`. -/
theorem C2_mean_sentinel (weather_data : List Value)
    (h : ∃ v ∈ weather_data, pyFloat v = none) :
    calculate_mean weather_data = .err "Cannot divide by zero" ∧
      calculate_mean [Value.strV "a"] = .err "Cannot divide by zero" := by
  obtain ⟨v, hmem, hv⟩ := h
  constructor
  · unfold calculate_mean
    rw [floatList_none_of_mem hmem hv]
  · with_unfolding_all decide

/-- C2 witness: `["a"]` has a conversion-failing element, and the sentinel
is returned on it. -/
theorem C2_witness :
    (∃ v ∈ [Value.strV "a"], pyFloat v = none) ∧
      calculate_mean [Value.strV "a"] = .err "Cannot divide by zero" := by
  have hx : pyFloat (Value.strV "a") = none := by with_unfolding_all decide
  exact ⟨⟨Value.strV "a", by simp, hx⟩,
    (C2_mean_sentinel [Value.strV "a"] ⟨Value.strV "a", by simp, hx⟩).2⟩

/-- C7: `calculate_mean` returns `0.0` on the empty list (a sentinel, not an
error), and on any non-empty list of convertible values the sum of the
converted elements divided by the count; in particular `2.0` on
`[1, 2, 3]`. -/
theorem C7_mean_empty_and_sum (weather_data : List Value) (qs : List ℚ)
    (hne : weather_data ≠ []) (hconv : floatList weather_data = some qs) :
    calculate_mean weather_data = .num (qs.sum / qs.length) ∧
      calculate_mean [] = .num 0 ∧
      calculate_mean [Value.intV 1, Value.intV 2, Value.intV 3] = .num 2 := by
  refine ⟨?_, rfl, by with_unfolding_all decide⟩
  unfold calculate_mean
  rw [hconv]
  have hlen : qs.length ≠ 0 := by
    rw [floatList_length hconv]
    simpa [List.length_eq_zero] using hne
  simp [hlen]

/-- C7 witness: the non-empty branch applied at `[1, 2, 3]`. -/
theorem C7_witness :
    ([Value.intV 1, Value.intV 2, Value.intV 3] : List Value) ≠ [] ∧
      calculate_mean [Value.intV 1, Value.intV 2, Value.intV 3]
        = .num (([1, 2, 3] : List ℚ).sum / (([1, 2, 3] : List ℚ).length : ℚ)) := by
  have hc : floatList [Value.intV 1, Value.intV 2, Value.intV 3] = some [1, 2, 3] := by
    with_unfolding_all decide
  exact ⟨by simp,
    (C7_mean_empty_and_sum [Value.intV 1, Value.intV 2, Value.intV 3] [1, 2, 3]
      (by simp) hc).1⟩

theorem find_min_spec {wd : List Value} {qs : List ℚ}
    (hne : wd ≠ []) (hconv : floatList wd = some qs) :
    ∃ v i, find_min wd = some (.pair v i) ∧ i < qs.length ∧ qs[i]? = some v ∧
      (∀ q ∈ qs, v ≤ q) ∧ ∀ j, i < j → qs[j]? ≠ some v := by
  have hqsne : qs ≠ [] := by
    intro hq
    apply hne
    have := floatList_length hconv
    rw [hq] at this
    simpa [List.length_eq_zero] using this.symm
  obtain ⟨m, hm⟩ : ∃ m, qs.min? = some m := by
    cases qs with
    | nil => exact absurd rfl hqsne
    | cons a l => exact ⟨_, List.min?_cons'⟩
  obtain ⟨hmem, hle⟩ := min?_spec hm
  obtain ⟨k, hk⟩ := pyIndex_of_mem (List.mem_reverse.mpr hmem)
  obtain ⟨hk1, hk2, hk3⟩ := pyIndex_spec hk
  rw [List.length_reverse] at hk1
  refine ⟨m, qs.length - 1 - k, ?_, by omega, ?_, hle, ?_⟩
  · simp only [find_min, if_neg hne, hconv, hm, hk]
  · rw [← List.getElem?_reverse hk1]
    exact hk2
  · intro j hj
    by_cases hjl : j < qs.length
    · have hjk : qs.length - 1 - j < k := by omega
      have hne' := hk3 _ hjk
      rw [List.getElem?_reverse (by omega)] at hne'
      have hjj : qs.length - 1 - (qs.length - 1 - j) = j := by omega
      rw [hjj] at hne'
      exact hne'
    · rw [List.getElem?_eq_none (by omega)]
      simp

theorem find_max_spec {wd : List Value} {qs : List ℚ}
    (hne : wd ≠ []) (hconv : floatList wd = some qs) :
    ∃ v i, find_max wd = some (.pair v i) ∧ i < qs.length ∧ qs[i]? = some v ∧
      (∀ q ∈ qs, q ≤ v) ∧ ∀ j, i < j → qs[j]? ≠ some v := by
  have hqsne : qs ≠ [] := by
    intro hq
    apply hne
    have := floatList_length hconv
    rw [hq] at this
    simpa [List.length_eq_zero] using this.symm
  obtain ⟨m, hm⟩ : ∃ m, qs.max? = some m := by
    cases qs with
    | nil => exact absurd rfl hqsne
    | cons a l => exact ⟨_, List.max?_cons'⟩
  obtain ⟨hmem, hle⟩ := max?_spec hm
  obtain ⟨k, hk⟩ := pyIndex_of_mem (List.mem_reverse.mpr hmem)
  obtain ⟨hk1, hk2, hk3⟩ := pyIndex_spec hk
  rw [List.length_reverse] at hk1
  refine ⟨m, qs.length - 1 - k, ?_, by omega, ?_, hle, ?_⟩
  · simp only [find_max, if_neg hne, hconv, hm, hk]
  · rw [← List.getElem?_reverse hk1]
    exact hk2
  · intro j hj
    by_cases hjl : j < qs.length
    · have hjk : qs.length - 1 - j < k := by omega
      have hne' := hk3 _ hjk
      rw [List.getElem?_reverse (by omega)] at hne'
      have hjj : qs.length - 1 - (qs.length - 1 - j) = j := by omega
      rw [hjj] at hne'
      exact hne'
    · rw [List.getElem?_eq_none (by omega)]
      simp

/-- C1: on a non-empty list whose elements all convert to float, `find_min`
returns the minimum of the converted values paired with the index of its
LAST occurrence (the value bounds every element, sits at the returned
index, and no later position holds it); `find_max` is symmetric with the
maximum; and concretely `find_min([1,2,1]) = (1.0, 2)`. -/
theorem C1_find_min_max_last_occurrence (weather_data : List Value) (qs : List ℚ)
    (hne : weather_data ≠ []) (hconv : floatList weather_data = some qs) :
    ((∃ v i, find_min weather_data = some (.pair v i) ∧ qs[i]? = some v ∧
        (∀ q ∈ qs, v ≤ q) ∧ ∀ j, i < j → qs[j]? ≠ some v) ∧
      (∃ v i, find_max weather_data = some (.pair v i) ∧ qs[i]? = some v ∧
        (∀ q ∈ qs, q ≤ v) ∧ ∀ j, i < j → qs[j]? ≠ some v)) ∧
      find_min [Value.intV 1, Value.intV 2, Value.intV 1] = some (.pair 1 2) := by
  refine ⟨⟨?_, ?_⟩, by with_unfolding_all decide⟩
  · obtain ⟨v, i, h1, _, h3, h4, h5⟩ := find_min_spec hne hconv
    exact ⟨v, i, h1, h3, h4, h5⟩
  · obtain ⟨v, i, h1, _, h3, h4, h5⟩ := find_max_spec hne hconv
    exact ⟨v, i, h1, h3, h4, h5⟩

/-- C1 witness: the theorem applied at `[1, 2, 1]`. -/
theorem C1_witness :
    ((∃ v i, find_min [Value.intV 1, Value.intV 2, Value.intV 1] = some (.pair v i) ∧
        ([1, 2, 1] : List ℚ)[i]? = some v ∧
        (∀ q ∈ ([1, 2, 1] : List ℚ), v ≤ q) ∧
        ∀ j, i < j → ([1, 2, 1] : List ℚ)[j]? ≠ some v) ∧
      (∃ v i, find_max [Value.intV 1, Value.intV 2, Value.intV 1] = some (.pair v i) ∧
        ([1, 2, 1] : List ℚ)[i]? = some v ∧
        (∀ q ∈ ([1, 2, 1] : List ℚ), q ≤ v) ∧
        ∀ j, i < j → ([1, 2, 1] : List ℚ)[j]? ≠ some v)) ∧
      find_min [Value.intV 1, Value.intV 2, Value.intV 1] = some (.pair 1 2) :=
  C1_find_min_max_last_occurrence [Value.intV 1, Value.intV 2, Value.intV 1] [1, 2, 1]
    (by simp) (by with_unfolding_all decide)

theorem rndHalfEven_nearest (x : ℚ) (z : ℤ) :
    |(rndHalfEven x : ℚ) - x| ≤ |(z : ℚ) - x| := by
  have hf1 : ((⌊x⌋ : ℤ) : ℚ) ≤ x := Int.floor_le x
  have hf2 : x < (⌊x⌋ : ℚ) + 1 := Int.lt_floor_add_one x
  have hz : (z : ℚ) ≤ (⌊x⌋ : ℚ) ∨ ((⌊x⌋ : ℚ) + 1 ≤ (z : ℚ)) := by
    rcases Int.le_or_lt z ⌊x⌋ with h | h
    · exact Or.inl (by exact_mod_cast h)
    · refine Or.inr ?_
      have : ⌊x⌋ + 1 ≤ z := h
      exact_mod_cast this
  unfold rndHalfEven
  split_ifs with h1 h2 h3
  · rcases hz with hz | hz
    · rw [abs_of_nonpos (by linarith), abs_of_nonpos (by linarith)]
      linarith
    · rw [abs_of_nonpos (by linarith), abs_of_nonneg (by linarith)]
      linarith
  · push_cast
    rcases hz with hz | hz
    · rw [abs_of_nonneg (by linarith), abs_of_nonpos (by linarith)]
      linarith
    · rw [abs_of_nonneg (by linarith), abs_of_nonneg (by linarith)]
      linarith
  · have heq : x - (⌊x⌋ : ℚ) = 1/2 := le_antisymm (not_lt.mp h2) (not_lt.mp h1)
    rcases hz with hz | hz
    · rw [abs_of_nonpos (by linarith), abs_of_nonpos (by linarith)]
      linarith
    · rw [abs_of_nonpos (by linarith), abs_of_nonneg (by linarith)]
      linarith
  · have heq : x - (⌊x⌋ : ℚ) = 1/2 := le_antisymm (not_lt.mp h2) (not_lt.mp h1)
    push_cast
    rcases hz with hz | hz
    · rw [abs_of_nonneg (by linarith), abs_of_nonpos (by linarith)]
      linarith
    · rw [abs_of_nonneg (by linarith), abs_of_nonneg (by linarith)]
      linarith

theorem round1_nearest (x : ℚ) (z : ℤ) :
    |round1 x - x| ≤ |(z : ℚ) / 10 - x| := by
  unfold round1
  have h := rndHalfEven_nearest (x * 10) z
  rw [show (rndHalfEven (x * 10) : ℚ) / 10 - x
        = ((rndHalfEven (x * 10) : ℚ) - x * 10) / 10 by ring,
      show (z : ℚ) / 10 - x = ((z : ℚ) - x * 10) / 10 by ring,
      abs_div, abs_div, show |(10 : ℚ)| = 10 by norm_num]
  exact (div_le_div_iff_of_pos_right (by norm_num)).mpr h

/-- C5: for every value that converts to a float, `convert_f_to_c` returns a
multiple of 1/10 that is a nearest multiple of 1/10 to the exact
`(t − 32) × 5/9` (rounding to one decimal place, ties resolved
half-to-even as Python's `round` does); non-numeric input raises; and
concretely 32 °F ↦ 0.0, 212 °F ↦ 100.0, 145 °F ↦ 62.8. -/
theorem C5_convert_f_to_c_rounding (v : Value) (t : ℚ) (hv : pyFloat v = some t) :
    (∃ r, convert_f_to_c v = some r ∧ (∃ z : ℤ, r = (z : ℚ) / 10) ∧
      ∀ z : ℤ, |r - (t - 32) * 5 / 9| ≤ |(z : ℚ) / 10 - (t - 32) * 5 / 9|) ∧
    (∀ w, pyFloat w = none → convert_f_to_c w = none) ∧
    convert_f_to_c (Value.intV 32) = some 0 ∧
    convert_f_to_c (Value.intV 212) = some 100 ∧
    convert_f_to_c (Value.intV 145) = some (314/5) := by
  refine ⟨⟨round1 ((t - 32) * 5 / 9), ?_, ⟨_, rfl⟩, fun z => round1_nearest _ z⟩,
    ?_, ?_, ?_, ?_⟩
  · simp [convert_f_to_c, hv]
  · intro w hw
    simp [convert_f_to_c, hw]
  · with_unfolding_all decide
  · with_unfolding_all decide
  · with_unfolding_all decide

/-- C5 witness: the theorem applied at 145 °F (62.8 °C = 314/5). -/
theorem C5_witness :
    pyFloat (Value.intV 145) = some 145 ∧
      convert_f_to_c (Value.intV 145) = some (314/5) :=
  ⟨by with_unfolding_all decide,
    (C5_convert_f_to_c_rounding (Value.intV 145) 145
      (by with_unfolding_all decide)).2.2.2.2⟩

theorem dayBlock_ends_newline {r : Row} {b : String} (h : dayBlock r = some b) :
    ∃ b', b = b' ++ "\n" := by
  unfold dayBlock at h
  split at h
  · split at h
    · injection h with h
      exact ⟨_, h.symm⟩
    · simp at h
  · simp at h

theorem rowBlocks_ends {wd : List Row} {bs : List String}
    (h : rowBlocks wd = some bs) : ∀ b ∈ bs, ∃ b', b = b' ++ "\n" := by
  induction wd generalizing bs with
  | nil =>
    simp only [rowBlocks] at h
    injection h with h
    subst h
    simp
  | cons r rs ih =>
    simp only [rowBlocks] at h
    cases hd : dayBlock r with
    | none => rw [hd] at h; simp at h
    | some b0 =>
      rw [hd] at h
      simp only [Option.map_eq_some'] at h
      obtain ⟨bs', hbs', rfl⟩ := h
      intro b hb
      rcases List.mem_cons.mp hb with rfl | hb
      · exact dayBlock_ends_newline hd
      · exact ih hbs' b hb

theorem rowBlocks_length : ∀ {wd : List Row} {bs : List String},
    rowBlocks wd = some bs → bs.length = wd.length := by
  intro wd
  induction wd with
  | nil =>
    intro bs h
    simp only [rowBlocks] at h
    injection h with h
    simp [← h]
  | cons r rs ih =>
    intro bs h
    simp only [rowBlocks] at h
    cases hd : dayBlock r with
    | none => rw [hd] at h; simp at h
    | some b0 =>
      rw [hd] at h
      simp only [Option.map_eq_some'] at h
      obtain ⟨bs', hbs', rfl⟩ := h
      simp [ih hbs']

theorem pyJoin_ends : ∀ {bs : List String}, bs ≠ [] →
    (∀ b ∈ bs, ∃ b', b = b' ++ "\n") → ∃ t, pyJoin "\n" bs = t ++ "\n" := by
  intro bs
  induction bs with
  | nil => intro hne; exact absurd rfl hne
  | cons x xs ih =>
    intro _ hb
    cases xs with
    | nil =>
      obtain ⟨b', hb'⟩ := hb x (by simp)
      exact ⟨b', by simpa [pyJoin] using hb'⟩
    | cons y ys =>
      obtain ⟨t, ht⟩ := ih (by simp) (fun b hbm => hb b (List.mem_cons_of_mem x hbm))
      refine ⟨x ++ "\n" ++ t, ?_⟩
      show x ++ "\n" ++ pyJoin "\n" (y :: ys) = x ++ "\n" ++ t ++ "\n"
      rw [ht, ← String.append_assoc]

/-- C3 counterexample: on a one-day dataset the daily summary ends with TWO
newlines — the block's own trailing newline plus the appended one, i.e. a
blank line at the end — refuting "exactly one `\n` at the end, not a blank
line". -/
theorem C3_counterexample :
    generate_daily_summary [[Value.strV "2021-07-06", Value.intV 49, Value.intV 77]]
        = some ("---- Tuesday 06 July 2021 ----\n  Minimum Temperature: 9.4°C\n  Maximum Temperature: 25.0°C"
            ++ "\n\n") ∧
      ¬ (∀ u, "---- Tuesday 06 July 2021 ----\n  Minimum Temperature: 9.4°C\n  Maximum Temperature: 25.0°C"
            ++ "\n\n" ≠ u ++ "\n\n") := by
  constructor
  · with_unfolding_all decide
  · intro hcl
    exact hcl _ rfl

/-- C3 amended: the daily summary always ends with a trailing newline, and
on the empty dataset it is exactly `"\n"`; but on a NON-empty dataset the
last per-day block's own final newline precedes the appended one, so the
string ends with `"\n\n"` (a blank line at the end), not a single newline. -/
theorem C3_amended (weather_data : List Row) (s : String)
    (h : generate_daily_summary weather_data = some s) :
    (∃ t, s = t ++ "\n") ∧
      (weather_data = [] → s = "\n") ∧
      (weather_data ≠ [] → ∃ t, s = t ++ "\n\n") := by
  unfold generate_daily_summary at h
  cases hrb : rowBlocks weather_data with
  | none => rw [hrb] at h; simp at h
  | some bs =>
    rw [hrb] at h
    simp only [Option.map_some'] at h
    injection h with h
    subst h
    refine ⟨⟨pyJoin "\n" bs, rfl⟩, ?_, ?_⟩
    · intro hwd
      subst hwd
      have hbs : bs = [] := by
        have := hrb
        simp only [rowBlocks] at this
        injection this with this
        exact this.symm
      subst hbs
      rfl
    · intro hwd
      have hbsne : bs ≠ [] := by
        intro hbs
        apply hwd
        have := rowBlocks_length hrb
        rw [hbs] at this
        simpa [List.length_eq_zero] using this.symm
      obtain ⟨t, ht⟩ := pyJoin_ends hbsne (rowBlocks_ends hrb)
      refine ⟨t, ?_⟩
      rw [ht, String.append_assoc]
      rfl

/-- C3 witness: the amended theorem applied to a concrete one-day dataset. -/
theorem C3_witness :
    (∃ t, ("---- Tuesday 06 July 2021 ----\n  Minimum Temperature: 9.4°C\n  Maximum Temperature: 25.0°C\n\n" : String)
        = t ++ "\n") ∧
      (([[Value.strV "2021-07-06", Value.intV 49, Value.intV 77]] : List Row) = [] →
        ("---- Tuesday 06 July 2021 ----\n  Minimum Temperature: 9.4°C\n  Maximum Temperature: 25.0°C\n\n" : String) = "\n") ∧
      (([[Value.strV "2021-07-06", Value.intV 49, Value.intV 77]] : List Row) ≠ [] →
        ∃ t, ("---- Tuesday 06 July 2021 ----\n  Minimum Temperature: 9.4°C\n  Maximum Temperature: 25.0°C\n\n" : String)
          = t ++ "\n\n") :=
  C3_amended [[Value.strV "2021-07-06", Value.intV 49, Value.intV 77]]
    "---- Tuesday 06 July 2021 ----\n  Minimum Temperature: 9.4°C\n  Maximum Temperature: 25.0°C\n\n"
    (by with_unfolding_all decide)

theorem validCalendarData_iff_parse10 (ds : List Char) :
    validCalendarData ds = true ↔ (parse10 ds).isSome := by
  rcases ds with _ | ⟨c1, _ | ⟨c2, _ | ⟨c3, _ | ⟨c4, _ | ⟨c5, _ | ⟨c6, _ | ⟨c7, _ |
    ⟨c8, _ | ⟨c9, _ | ⟨c10, _ | ⟨c11, rest⟩⟩⟩⟩⟩⟩⟩⟩⟩⟩⟩
  case nil => simp [validCalendarData, parse10]
  case cons.nil => simp [validCalendarData, parse10]
  case cons.cons.nil => simp [validCalendarData, parse10]
  case cons.cons.cons.nil => simp [validCalendarData, parse10]
  case cons.cons.cons.cons.nil => simp [validCalendarData, parse10]
  case cons.cons.cons.cons.cons.nil => simp [validCalendarData, parse10]
  case cons.cons.cons.cons.cons.cons.nil => simp [validCalendarData, parse10]
  case cons.cons.cons.cons.cons.cons.cons.nil => simp [validCalendarData, parse10]
  case cons.cons.cons.cons.cons.cons.cons.cons.nil =>
    simp [validCalendarData, parse10]
  case cons.cons.cons.cons.cons.cons.cons.cons.cons.nil =>
    simp [validCalendarData, parse10]
  case cons.cons.cons.cons.cons.cons.cons.cons.cons.cons.cons =>
    simp [validCalendarData, parse10]
  case cons.cons.cons.cons.cons.cons.cons.cons.cons.cons.nil =>
    simp only [validCalendarData, parse10, Bool.and_eq_true, beq_iff_eq,
      decide_eq_true_eq, List.all_eq_true]
    split_ifs with hA hB
    · simp only [Option.isSome_some, iff_true]
      tauto
    · simp only [Option.isSome_none, Bool.false_eq_true, iff_false]
      tauto
    · simp only [Option.isSome_none, Bool.false_eq_true, iff_false]
      tauto

theorem validCalendarData_length {ds : List Char}
    (h : validCalendarData ds = true) : ds.length = 10 := by
  rcases ds with _ | ⟨c1, _ | ⟨c2, _ | ⟨c3, _ | ⟨c4, _ | ⟨c5, _ | ⟨c6, _ | ⟨c7, _ |
    ⟨c8, _ | ⟨c9, _ | ⟨c10, _ | ⟨c11, rest⟩⟩⟩⟩⟩⟩⟩⟩⟩⟩⟩ <;>
    simp_all [validCalendarData]

/-- C6 counterexample: `"2021-07-06T00:00:00"` is not a calendar-date-form
string, yet `convert_date` accepts it (every CPython `fromisoformat` since
3.7 parses a date followed by a time-of-day) and formats its date part,
refuting "raises a parse error for every input string that is not a valid
ISO date in calendar-date form". -/
theorem C6_counterexample :
    validCalendarDateStr "2021-07-06T00:00:00" = false ∧
      convert_date "2021-07-06T00:00:00" = some "Tuesday 06 July 2021" := by
  constructor
  · with_unfolding_all decide
  · with_unfolding_all decide

/-- C6 amended: every valid `YYYY-MM-DD` string parses and is rendered as
`"<full weekday name> <zero-padded day> <full month name> <year>"`
(e.g. `"2021-07-06" ↦ "Tuesday 06 July 2021"`), and every TEN-character
string that is not a valid calendar date raises a parse error; but longer
inputs that extend a valid date with a time-of-day part are also accepted
and formatted from their date part, so not every non-calendar-date string
raises. -/
theorem C6_amended :
    (∀ s, validCalendarDateStr s = true → ∃ dt, pyFromisoformat s = some dt ∧
        convert_date s = some (weekdayName dt ++ " " ++ pad2 dt.day ++ " "
          ++ monthName dt.month ++ " " ++ toString dt.year)) ∧
      (∀ s, s.length = 10 → validCalendarDateStr s = false → convert_date s = none) ∧
      convert_date "2021-07-06" = some "Tuesday 06 July 2021" := by
  refine ⟨?_, ?_, by with_unfolding_all decide⟩
  · intro s hs
    have hlen : s.data.length = 10 := validCalendarData_length hs
    have hparse : (parse10 s.data).isSome :=
      (validCalendarData_iff_parse10 s.data).mp hs
    obtain ⟨dt, hdt⟩ := Option.isSome_iff_exists.mp hparse
    refine ⟨dt, ?_, ?_⟩
    · simp only [pyFromisoformat, hlen, if_pos]
      exact hdt
    · unfold convert_date
      simp only [pyFromisoformat, hlen, if_pos, hdt, Option.map_some']
      rfl
  · intro s hlen hinval
    have hlen' : s.data.length = 10 := hlen
    have hparse : parse10 s.data = none := by
      rcases h : parse10 s.data with _ | dt
      · rfl
      · exfalso
        have : validCalendarData s.data = true :=
          (validCalendarData_iff_parse10 s.data).mpr (by simp [h])
        rw [validCalendarDateStr] at hinval
        rw [this] at hinval
        exact absurd hinval (by simp)
    unfold convert_date
    simp only [pyFromisoformat, hlen', if_pos, hparse, Option.map_none']

/-- C6 witness: the valid branch at `"2021-07-06"` and the invalid
ten-character branch at `"2021-13-06"` (month 13). -/
theorem C6_witness :
    (∃ dt, pyFromisoformat "2021-07-06" = some dt ∧
      convert_date "2021-07-06" = some (weekdayName dt ++ " " ++ pad2 dt.day ++ " "
        ++ monthName dt.month ++ " " ++ toString dt.year)) ∧
      convert_date "2021-13-06" = none :=
  ⟨(C6_amended).1 "2021-07-06" (by with_unfolding_all decide),
    (C6_amended).2.1 "2021-13-06" (by with_unfolding_all decide)
      (by with_unfolding_all decide)⟩

theorem convert_date_of_valid {s : String} (h : validCalendarDateStr s = true) :
    ∃ r, convert_date s = some r := by
  have hlen : s.data.length = 10 := validCalendarData_length h
  have hparse : (parse10 s.data).isSome := (validCalendarData_iff_parse10 s.data).mp h
  obtain ⟨dt, hdt⟩ := Option.isSome_iff_exists.mp hparse
  refine ⟨strftimeAdBY dt, ?_⟩
  unfold convert_date
  simp only [pyFromisoformat, hlen, if_pos, hdt, Option.map_some']

theorem colFloats_some {i : ℕ} : ∀ {rows : List Row},
    (∀ r ∈ rows, ∃ v q, r.get? i = some v ∧ pyFloat v = some q) →
    ∃ qs, colFloats i rows = some qs ∧ qs.length = rows.length := by
  intro rows
  induction rows with
  | nil => intro _; exact ⟨[], rfl, rfl⟩
  | cons r rs ih =>
    intro h
    obtain ⟨v, q, hv, hq⟩ := h r (List.mem_cons_self r rs)
    obtain ⟨qs, hqs, hlen⟩ := ih (fun t ht => h t (List.mem_cons_of_mem r ht))
    refine ⟨q :: qs, ?_, by simp [hlen]⟩
    simp only [colFloats, hv, Option.some_bind, hq, hqs, Option.map_some']

theorem calculate_mean_floatV (qs : List ℚ) :
    ∃ q, calculate_mean (qs.map Value.floatV) = .num q := by
  simp only [calculate_mean, floatList_map_floatV]
  split_ifs with h
  · exact ⟨0, rfl⟩
  · exact ⟨_, rfl⟩

/-- C10 (implicit safety): on a non-empty dataset whose rows carry a valid
ISO date in field 0 and float-convertible values in fields 1 and 2,
`generate_summary` completes without error, and the indices returned by
`find_min` over column 1 and `find_max` over column 2 are strictly below
the number of rows (so the date lookups cannot go out of range). -/
theorem C10_generate_summary_total (weather_data : List Row)
    (hne : weather_data ≠ [])
    (hrows : ∀ row ∈ weather_data,
      (∃ s, row.get? 0 = some (Value.strV s) ∧ validCalendarDateStr s = true) ∧
      (∃ v q, row.get? 1 = some v ∧ pyFloat v = some q) ∧
      (∃ v q, row.get? 2 = some v ∧ pyFloat v = some q)) :
    (∃ s, generate_summary weather_data = some s) ∧
      (∀ qs v i, colFloats 1 weather_data = some qs →
        find_min (qs.map Value.floatV) = some (.pair v i) →
          i < weather_data.length) ∧
      (∀ qs v i, colFloats 2 weather_data = some qs →
        find_max (qs.map Value.floatV) = some (.pair v i) →
          i < weather_data.length) := by
  obtain ⟨mts, hmts, hlen1⟩ := colFloats_some (fun r hr => (hrows r hr).2.1)
  obtain ⟨Mts, hMts, hlen2⟩ := colFloats_some (fun r hr => (hrows r hr).2.2)
  have hmtsne : (mts.map Value.floatV) ≠ [] := by
    simp only [ne_eq, List.map_eq_nil_iff]
    intro h
    apply hne
    rw [h] at hlen1
    simpa [List.length_eq_zero] using hlen1.symm
  have hMtsne : (Mts.map Value.floatV) ≠ [] := by
    simp only [ne_eq, List.map_eq_nil_iff]
    intro h
    apply hne
    rw [h] at hlen2
    simpa [List.length_eq_zero] using hlen2.symm
  obtain ⟨mv, mi, hfm, hmi, -, -, -⟩ :=
    find_min_spec hmtsne (floatList_map_floatV mts)
  obtain ⟨Mv, Mi, hfM, hMi, -, -, -⟩ :=
    find_max_spec hMtsne (floatList_map_floatV Mts)
  have hmi' : mi < weather_data.length := by rw [← hlen1]; exact hmi
  have hMi' : Mi < weather_data.length := by rw [← hlen2]; exact hMi
  obtain ⟨rowm, hrowm⟩ : ∃ r, weather_data.get? mi = some r := by
    rcases h : weather_data.get? mi with _ | r
    · rw [List.get?_eq_none] at h
      omega
    · exact ⟨r, rfl⟩
  obtain ⟨rowM, hrowM⟩ : ∃ r, weather_data.get? Mi = some r := by
    rcases h : weather_data.get? Mi with _ | r
    · rw [List.get?_eq_none] at h
      omega
    · exact ⟨r, rfl⟩
  obtain ⟨sm, hsm, hsmv⟩ := (hrows _ (List.get?_mem hrowm)).1
  obtain ⟨sM, hsM, hsMv⟩ := (hrows _ (List.get?_mem hrowM)).1
  obtain ⟨dm, hdm⟩ := convert_date_of_valid hsmv
  obtain ⟨dM, hdM⟩ := convert_date_of_valid hsMv
  obtain ⟨q1, hq1⟩ := calculate_mean_floatV mts
  obtain ⟨q2, hq2⟩ := calculate_mean_floatV Mts
  refine ⟨?_, ?_, ?_⟩
  · unfold generate_summary
    rw [if_neg hne]
    simp only [hmts, hMts, hfm, hfM, hrowm, hrowM, hq1, hq2, Option.some_bind,
      hsm, hsM, convertDateValue, hdm, hdM, meanToValue, convert_f_to_c, pyFloat,
      Option.map_some']
    exact ⟨_, rfl⟩
  · intro qs v i hcol hfind
    obtain rfl : mts = qs := by
      rw [hcol] at hmts
      injection hmts with h
      exact h.symm
    rw [hfind] at hfm
    injection hfm with hfm
    obtain ⟨-, rfl⟩ := MinMaxResult.pair.inj hfm.symm
    exact hmi'
  · intro qs v i hcol hfind
    obtain rfl : Mts = qs := by
      rw [hcol] at hMts
      injection hMts with h
      exact h.symm
    rw [hfind] at hfM
    injection hfM with hfM
    obtain ⟨-, rfl⟩ := MinMaxResult.pair.inj hfM.symm
    exact hMi'

/-- C10 witness: the theorem applied to the spec's concrete two-day
dataset. -/
theorem C10_witness :
    ∃ s, generate_summary
      [[Value.strV "2021-07-02", Value.intV 49, Value.intV 77],
       [Value.strV "2021-07-03", Value.intV 57, Value.intV 68]] = some s :=
  (C10_generate_summary_total
    [[Value.strV "2021-07-02", Value.intV 49, Value.intV 77],
     [Value.strV "2021-07-03", Value.intV 57, Value.intV 68]]
    (by simp)
    (by
      intro row hrow
      rcases List.mem_cons.mp hrow with rfl | hrow
      · exact ⟨⟨"2021-07-02", by with_unfolding_all decide, by with_unfolding_all decide⟩,
          ⟨Value.intV 49, 49, by with_unfolding_all decide, by with_unfolding_all decide⟩,
          ⟨Value.intV 77, 77, by with_unfolding_all decide, by with_unfolding_all decide⟩⟩
      · rcases List.mem_singleton.mp hrow with rfl
        exact ⟨⟨"2021-07-03", by with_unfolding_all decide, by with_unfolding_all decide⟩,
          ⟨Value.intV 57, 57, by with_unfolding_all decide, by with_unfolding_all decide⟩,
          ⟨Value.intV 68, 68, by with_unfolding_all decide, by with_unfolding_all decide⟩⟩)).1

end Weather
